import Mathlib

/-!
Verification of the camtasio property-transformation engine, numeric
sanitizer, version detector and frame-timing utilities.

JSON-like project trees are embedded as a mutual inductive `JValue` /
`JList` / `JFields` (objects keep their fields as an ordered association
list, mirroring Python dict insertion order).  Numbers are embedded as
rationals: every numeric literal appearing in the repository's tests is
an integer or a finite decimal, which rationals represent exactly, and
the engine's arithmetic (multiply by a factor, round half-up) is exact
rational arithmetic.

The transform engine (`camtasio.transforms.engine`), the JSON encoder
(`camtasio.serialization.json_encoder`) and the version detector
(`camtasio.serialization.version`) are referenced by the package
`__init__` files and exercised by the test suite but their module source
is not part of the tree; those definitions are modelled from the spec,
as marked in their doc comments.  `FrameStamp` is translated directly
from `src/camtasio/utils/timing.py`.
-/

mutual

/-- A JSON value: number (embedded as `ℚ`), string, boolean, null,
sequence or mapping.  Mutual with `JList` (sequences) and `JFields`
(ordered key/value fields of a mapping). -/
inductive JValue : Type where
  | num (q : ℚ)
  | str (s : String)
  | bool (b : Bool)
  | null
  | arr (xs : JList)
  | obj (fs : JFields)
  deriving DecidableEq, Repr

/-- A JSON sequence. -/
inductive JList : Type where
  | nil
  | cons (hd : JValue) (tl : JList)
  deriving DecidableEq, Repr

/-- The ordered fields of a JSON mapping. -/
inductive JFields : Type where
  | nil
  | cons (key : String) (val : JValue) (tl : JFields)
  deriving DecidableEq, Repr

end

/-- Build a `JList` from a Lean list (concrete-input convenience). -/
def JList.ofList : List JValue → JList
  | [] => .nil
  | v :: tl => .cons v (JList.ofList tl)

/-- Build `JFields` from a Lean list of pairs (concrete-input convenience). -/
def JFields.ofList : List (String × JValue) → JFields
  | [] => .nil
  | (k, v) :: tl => .cons k v (JFields.ofList tl)

/-- First value stored under `key`, like Python `dict.get`. -/
def JFields.lookup : JFields → String → Option JValue
  | .nil, _ => none
  | .cons k v tl, key => if k == key then some v else JFields.lookup tl key

mutual

/-- Skeleton of a tree: every numeric leaf is replaced by `0`, everything
else (keys, order, lengths, strings, booleans, nulls, nesting) is kept.
Two trees have equal skeletons exactly when they agree on everything
except possibly the numeric leaf values. -/
def skel : JValue → JValue
  | .num _ => .num 0
  | .arr xs => .arr (skelL xs)
  | .obj fs => .obj (skelF fs)
  | v => v

/-- `skel` on sequences. -/
def skelL : JList → JList
  | .nil => .nil
  | .cons v tl => .cons (skel v) (skelL tl)

/-- `skel` on mapping fields. -/
def skelF : JFields → JFields
  | .nil => .nil
  | .cons k v tl => .cons k (skel v) (skelF tl)

end

/-- The numeric content of a leaf: `[q]` for a number, `[]` otherwise. -/
def numOnly : JValue → List ℚ
  | .num q => [q]
  | _ => []

mutual

/-- All numeric values stored under fields named `key`, anywhere in the
tree, in traversal order. -/
def collectNum (key : String) : JValue → List ℚ
  | .arr xs => collectNumL key xs
  | .obj fs => collectNumF key fs
  | _ => []

/-- `collectNum` on sequences. -/
def collectNumL (key : String) : JList → List ℚ
  | .nil => []
  | .cons v tl => collectNum key v ++ collectNumL key tl

/-- `collectNum` on mapping fields. -/
def collectNumF (key : String) : JFields → List ℚ
  | .nil => []
  | .cons k v tl =>
    (if k == key then numOnly v else []) ++ collectNum key v ++
      collectNumF key tl

end

mutual

/-- All values (of any type) stored under fields named `key`, anywhere in
the tree, in traversal order. -/
def collectVal (key : String) : JValue → List JValue
  | .arr xs => collectValL key xs
  | .obj fs => collectValF key fs
  | _ => []

/-- `collectVal` on sequences. -/
def collectValL (key : String) : JList → List JValue
  | .nil => []
  | .cons v tl => collectVal key v ++ collectValL key tl

/-- `collectVal` on mapping fields. -/
def collectValF (key : String) : JFields → List JValue
  | .nil => []
  | .cons k v tl =>
    (if k == key then [v] else []) ++ collectVal key v ++ collectValF key tl

end

/-- Modelled from the spec: transform kind of `TransformConfig`
(`camtasio.transforms.engine.TransformType`, module source not in tree):
`SPATIAL | TEMPORAL`. -/
inductive TransformType : Type where
  | SPATIAL
  | TEMPORAL
  deriving DecidableEq, Repr

/-- Modelled from the spec: `camtasio.transforms.engine.TransformConfig`
(module source not in tree): immutable configuration holding the
transform kind, the scale factor (a real, embedded as `ℚ`) and the
`preserve_audio_duration` flag used by temporal transforms. -/
structure TransformConfig : Type where
  transform_type : TransformType
  factor : ℚ
  preserve_audio_duration : Bool := true
  deriving DecidableEq, Repr

/-- Modelled from the spec: spatial parameter keys that are continuous
ratios (`scale{0,1,2}`), kept as unrounded floating point. -/
def spatialScaleKey (k : String) : Bool :=
  k == "scale0" || k == "scale1" || k == "scale2"

/-- Modelled from the spec: spatial parameter keys that are integer
pixel offsets (`translation{0,1,2}`, `geometryCrop{0..3}`), rounded to
the nearest integer after scaling. -/
def spatialIntKey (k : String) : Bool :=
  k == "translation0" || k == "translation1" || k == "translation2" ||
  k == "geometryCrop0" || k == "geometryCrop1" || k == "geometryCrop2" ||
  k == "geometryCrop3"

/-- Modelled from the spec: a parameter name matches a spatial pattern
when it is one of the `translationN` / `scaleN` / `geometryCropN` keys. -/
def spatialParamKey (k : String) : Bool :=
  spatialIntKey k || spatialScaleKey k

/-- Modelled from the spec: media fields scaled by temporal transforms:
`start`, `duration`, `mediaStart`/`markIn`, `mediaDuration`/`markOut`. -/
def temporalKey (k : String) : Bool :=
  k == "start" || k == "duration" || k == "mediaStart" || k == "markIn" ||
  k == "mediaDuration" || k == "markOut"

/-- Modelled from the spec: the duration-like fields whose temporal
scaling is suppressed for audio media when `preserve_audio_duration`. -/
def audioPreservedKey (k : String) : Bool :=
  k == "duration" || k == "mediaDuration"

/-- Modelled from the spec: keyframe entry fields scaled by temporal
transforms: `time`, `endTime`, `duration`. -/
def keyframeTimeKey (k : String) : Bool :=
  k == "time" || k == "endTime" || k == "duration"

/-- Modelled from the spec: geometry-rectangle keys (`rect`, and the
per-source-track `trackRect` exercised by the test suite) whose
4-element arrays are scaled elementwise by spatial transforms. -/
def rectKey (k : String) : Bool :=
  k == "rect" || k == "trackRect"

/-- Round half-up to the nearest integer, as a rational: Mathlib's
`round` is `⌊q + 1/2⌋`, the spec's round-half-up (identical to
round-half-away-from-zero on the nonnegative values these fields hold). -/
def roundHalfUp (q : ℚ) : ℚ :=
  (round q : ℤ)

/-- Modelled from the spec: is a media mapping audio-typed, i.e. does
its `_type` field hold the string `"AMFile"`. -/
def isAudioMedia (fs : JFields) : Bool :=
  match fs.lookup "_type" with
  | some (.str t) => t == "AMFile"
  | _ => false

/-- Modelled from the spec: scaling action on a directly-keyed scalar
field.  Classification by key is gated by a runtime type check: only
numeric leaves are ever rewritten.  Spatial mode scales the
`translationN`/`geometryCropN` keys (rounded) and the `scaleN` keys
(unrounded); temporal mode scales the `start`/`duration`/`mediaStart`/
`markIn`/`mediaDuration`/`markOut` keys (rounded) except that for an
audio-typed media with `preserve_audio_duration` the `duration` and
`mediaDuration` fields are left unchanged.  Every other key or
non-numeric value passes through. -/
def scaleLeaf (cfg : TransformConfig) (isAudio : Bool) (k : String) :
    JValue → JValue
  | .num q =>
    match cfg.transform_type with
    | .SPATIAL =>
      if spatialIntKey k then .num (roundHalfUp (q * cfg.factor))
      else if spatialScaleKey k then .num (q * cfg.factor)
      else .num q
    | .TEMPORAL =>
      if temporalKey k then
        if isAudio && cfg.preserve_audio_duration && audioPreservedKey k then
          .num q
        else .num (roundHalfUp (q * cfg.factor))
      else .num q
  | v => v

/-- Modelled from the spec: transformation of one field of a keyframe
entry.  `pSpatial` says whether the owning parameter name matches a
spatial pattern.  Temporal transforms scale the `time`/`endTime`/
`duration` fields regardless of the parameter name; spatial transforms
scale the `value` field exactly when `pSpatial`.  Non-numeric values
pass through unchanged. -/
def transformKeyframeField (cfg : TransformConfig) (pSpatial : Bool)
    (k : String) : JValue → JValue
  | .num q =>
    match cfg.transform_type with
    | .TEMPORAL =>
      if keyframeTimeKey k then .num (roundHalfUp (q * cfg.factor))
      else .num q
    | .SPATIAL =>
      if k == "value" && pSpatial then .num (q * cfg.factor)
      else .num q
  | v => v

/-- Modelled from the spec: fieldwise transformation of one keyframe
entry's mapping. -/
def transformKeyframeFields (cfg : TransformConfig) (pSpatial : Bool) :
    JFields → JFields
  | .nil => .nil
  | .cons k v tl =>
    .cons k (transformKeyframeField cfg pSpatial k v)
      (transformKeyframeFields cfg pSpatial tl)

/-- Modelled from the spec: a keyframe entry (a mapping) is transformed
field by field; a non-mapping entry passes through. -/
def transformKeyframeEntry (cfg : TransformConfig) (pSpatial : Bool) :
    JValue → JValue
  | .obj fs => .obj (transformKeyframeFields cfg pSpatial fs)
  | v => v

/-- Modelled from the spec: a `keyframes` sequence is transformed entry
by entry via the keyframe rule, preserving order and length. -/
def transformKeyframeList (cfg : TransformConfig) (pSpatial : Bool) :
    JList → JList
  | .nil => .nil
  | .cons v tl =>
    .cons (transformKeyframeEntry cfg pSpatial v)
      (transformKeyframeList cfg pSpatial tl)

/-- Modelled from the spec: one element of a geometry rectangle under a
spatial transform: numeric elements are scaled and rounded, anything
else passes through. -/
def scaleRectElem (f : ℚ) : JValue → JValue
  | .num q => .num (roundHalfUp (q * f))
  | v => v

/-- Modelled from the spec: elementwise spatial scaling of a `rect`-like
array. -/
def scaleRectList (f : ℚ) : JList → JList
  | .nil => .nil
  | .cons v tl => .cons (scaleRectElem f v) (scaleRectList f tl)

mutual

/-- Modelled from the spec: the recursive tree walker of
`camtasio.transforms.engine.PropertyTransformer` (module source not in
tree).  `transformValue` carries the key under which the current node
was reached (`pk`), used to decide whether a nested `keyframes` list
belongs to a spatially-scaled parameter.  Mappings are transformed field
by field by `transformField`; sequences are transformed elementwise
preserving order and length; scalars not covered by any rule pass
through unchanged. -/
def transformValue (cfg : TransformConfig) (pk : Option String) :
    JValue → JValue
  | .obj fs =>
    .obj (transformFields cfg (isAudioMedia fs)
      (match pk with
       | some k => spatialParamKey k
       | none => false) fs)
  | .arr xs => .arr (transformElems cfg pk xs)
  | v => v

/-- Modelled from the spec: elementwise transformation of a sequence. -/
def transformElems (cfg : TransformConfig) (pk : Option String) :
    JList → JList
  | .nil => .nil
  | .cons v tl =>
    .cons (transformValue cfg pk v) (transformElems cfg pk tl)

/-- Modelled from the spec: fieldwise transformation of a mapping,
preserving keys and order.  `isAudio` says whether the mapping is an
audio-typed media; `pSpatial` whether the mapping was reached under a
spatially-scaled parameter name. -/
def transformFields (cfg : TransformConfig) (isAudio pSpatial : Bool) :
    JFields → JFields
  | .nil => .nil
  | .cons k v tl =>
    .cons k (transformField cfg isAudio pSpatial k v)
      (transformFields cfg isAudio pSpatial tl)

/-- Modelled from the spec: dispatch on one field.  `editRate` values
are never scaled regardless of transform kind; a `keyframes` sequence is
special-cased by key name and transformed via the keyframe rule; a
`range` array is never spatially scaled (passthrough); `rect`-like
arrays are scaled elementwise by spatial transforms only; numeric
scalars go through `scaleLeaf`; other mappings and sequences are
recursed into generically. -/
def transformField (cfg : TransformConfig) (isAudio pSpatial : Bool)
    (k : String) : JValue → JValue
  | .arr xs =>
    if k == "editRate" then .arr xs
    else if k == "keyframes" then .arr (transformKeyframeList cfg pSpatial xs)
    else if k == "range" && cfg.transform_type == .SPATIAL then .arr xs
    else if rectKey k then
      if cfg.transform_type == .SPATIAL then .arr (scaleRectList cfg.factor xs)
      else .arr xs
    else .arr (transformElems cfg (some k) xs)
  | .obj fs =>
    if k == "editRate" then .obj fs
    else if (k == "range" && cfg.transform_type == .SPATIAL) || rectKey k then
      .obj fs
    else .obj (transformFields cfg (isAudioMedia fs) (spatialParamKey k) fs)
  | .num q => scaleLeaf cfg isAudio k (.num q)
  | v => v

end

/-- Modelled from the spec: canvas dimension scaling: multiply by the
factor, round half-up, and keep the result at least `1`. -/
def canvasDim (f q : ℚ) : ℤ :=
  max 1 (round (q * f))

/-- Modelled from the spec: the façade's treatment of a canvas
`width`/`height` field value: numeric values are scaled via `canvasDim`,
anything else passes through. -/
def canvasScaleDim (f : ℚ) : JValue → JValue
  | .num q => .num ((canvasDim f q : ℤ) : ℚ)
  | v => v

/-- Modelled from the spec: the façade's treatment of one top-level
field of the project mapping: `width`/`height` are canvas-scaled by
spatial transforms, `sourceBin` and `timeline` are driven through the
tree walker, and every other top-level key (`metadata`, `version`,
`editRate`, custom fields) is copied through untouched. -/
def facadeField (cfg : TransformConfig) (k : String) (v : JValue) : JValue :=
  if (k == "width" || k == "height") && cfg.transform_type == .SPATIAL then
    canvasScaleDim cfg.factor v
  else if k == "sourceBin" || k == "timeline" then
    transformValue cfg none v
  else v

/-- Modelled from the spec: the façade applied to every top-level field,
preserving keys and order. -/
def facadeFields (cfg : TransformConfig) : JFields → JFields
  | .nil => .nil
  | .cons k v tl => .cons k (facadeField cfg k v) (facadeFields cfg tl)

/-- Modelled from the spec:
`camtasio.transforms.engine.PropertyTransformer.transform_dict` (module
source not in tree): validate `factor > 0` first, failing fast with a
value error "Scale factor must be positive" before any tree walk
begins; otherwise return a new transformed mapping. -/
def transform_dict (cfg : TransformConfig) (v : JValue) :
    Except String JValue :=
  if cfg.factor ≤ 0 then .error "Scale factor must be positive"
  else
    .ok (match v with
         | .obj fs => .obj (facadeFields cfg fs)
         | v => v)

/-- Modelled from the spec:
`camtasio.transforms.engine.PropertyTransformer.transform_project`
(module source not in tree): same validation and transformation as
`transform_dict`, applied to the typed project's underlying mapping. -/
def transform_project (cfg : TransformConfig) (v : JValue) :
    Except String JValue :=
  transform_dict cfg v

/-- A Python float leaf: NaN, +Infinity, -Infinity or a finite value
(embedded as `ℚ`). -/
inductive PyFloat : Type where
  | nan
  | inf
  | ninf
  | finite (q : ℚ)
  deriving DecidableEq, Repr

mutual

/-- A Python value tree as seen by the JSON encoder: float, int, str,
bool, None, list or dict. -/
inductive PyVal : Type where
  | float (x : PyFloat)
  | int (n : ℤ)
  | str (s : String)
  | bool (b : Bool)
  | none
  | list (xs : PyList)
  | dict (fs : PyFields)
  deriving DecidableEq, Repr

/-- A Python list of values. -/
inductive PyList : Type where
  | nil
  | cons (hd : PyVal) (tl : PyList)
  deriving DecidableEq, Repr

/-- The ordered fields of a Python dict. -/
inductive PyFields : Type where
  | nil
  | cons (key : String) (val : PyVal) (tl : PyFields)
  deriving DecidableEq, Repr

end

/-- Modelled from the spec:
`camtasio.serialization.json_encoder.CamtasiaJSONEncoder.MIN_SAFE_FLOAT`
(module source not in tree): `-1.7976931348623157e308`, the most
negative finite double, i.e. `-17976931348623157 * 10 ^ 292`. -/
def MIN_SAFE_FLOAT : ℚ :=
  -(17976931348623157 * 10 ^ 292)

mutual

/-- Modelled from the spec:
`camtasio.serialization.json_encoder.CamtasiaJSONEncoder._preprocess`
(module source not in tree): recursively rewrite non-finite floats
before JSON encoding: `NaN → 0.0`, `+Infinity → -MIN_SAFE_FLOAT`,
`-Infinity → MIN_SAFE_FLOAT`; every other value (finite floats, ints,
strings, bools, None) and the whole list/dict structure pass through
unchanged. -/
def preprocess : PyVal → PyVal
  | .float .nan => .float (.finite 0)
  | .float .inf => .float (.finite (-MIN_SAFE_FLOAT))
  | .float .ninf => .float (.finite MIN_SAFE_FLOAT)
  | .float (.finite q) => .float (.finite q)
  | .list xs => .list (preprocessL xs)
  | .dict fs => .dict (preprocessF fs)
  | v => v

/-- `preprocess` on lists, elementwise. -/
def preprocessL : PyList → PyList
  | .nil => .nil
  | .cons v tl => .cons (preprocess v) (preprocessL tl)

/-- `preprocess` on dict fields, preserving keys and order. -/
def preprocessF : PyFields → PyFields
  | .nil => .nil
  | .cons k v tl => .cons k (preprocess v) (preprocessF tl)

end

mutual

/-- Does the tree contain only finite floats (no NaN or infinities)? -/
def allFinite : PyVal → Bool
  | .float .nan => false
  | .float .inf => false
  | .float .ninf => false
  | .list xs => allFiniteL xs
  | .dict fs => allFiniteF fs
  | _ => true

/-- `allFinite` on lists. -/
def allFiniteL : PyList → Bool
  | .nil => true
  | .cons v tl => allFinite v && allFiniteL tl

/-- `allFinite` on dict fields. -/
def allFiniteF : PyFields → Bool
  | .nil => true
  | .cons _ v tl => allFinite v && allFiniteF tl

end

/-- Modelled from the spec:
`camtasio.serialization.version.ProjectVersion` (module source not in
tree): the known schema version tags. -/
inductive ProjectVersion : Type where
  | V1_0
  | V4_0
  | V9_0
  | UNKNOWN
  deriving DecidableEq, Repr

/-- Modelled from the spec:
`camtasio.serialization.version.detect_version` (module source not in
tree): classify a raw project mapping from a priority-ordered signature
table.  The `version` field is primary (`"1.0" → V1_0`, `"4.0" → V4_0`,
`"9.0" → V9_0`, anything else unknown); with no usable `version` field
the `editRate` magnitude is a secondary disambiguator: an edit rate at
or above the v9 high-resolution-timing threshold `705600000` implies
`V9_0`; otherwise the result is `UNKNOWN`. -/
def detect_version (raw : JValue) : ProjectVersion :=
  match raw with
  | .obj fs =>
    match fs.lookup "version" with
    | some (.str v) =>
      if v == "1.0" then .V1_0
      else if v == "4.0" then .V4_0
      else if v == "9.0" then .V9_0
      else .UNKNOWN
    | _ =>
      match fs.lookup "editRate" with
      | some (.num q) => if 705600000 ≤ q then .V9_0 else .UNKNOWN
      | _ => .UNKNOWN
  | _ => .UNKNOWN

/-- `camtasio.utils.timing.FrameStamp`: a timestamp as a frame number at
a frame rate. -/
structure FrameStamp : Type where
  frame_number : ℤ
  frame_rate : ℤ
  deriving DecidableEq, Repr

/-- `FrameStamp.__post_init__`: validation performed by every
construction: the frame rate must be positive (checked first), the
frame number nonnegative, each violation raising `ValueError`. -/
def FrameStamp.make (frame_number frame_rate : ℤ) : Except String FrameStamp :=
  if frame_rate ≤ 0 then
    .error ("Frame rate must be positive, got " ++ toString frame_rate)
  else if frame_number < 0 then
    .error ("Frame number must be non-negative, got " ++ toString frame_number)
  else .ok ⟨frame_number, frame_rate⟩

/-- `camtasio.utils.timing._lcm`: `abs(a * b) // math.gcd(a, b)`. -/
def lcmOf (a b : ℤ) : ℤ :=
  |a * b| / (Int.gcd a b : ℤ)

/-- `FrameStamp._add_frame_stamps`: convert both frame numbers to the
least common multiple of the frame rates and add, then construct (and
hence validate) the result. -/
def FrameStamp.add_frame_stamps (frame_rate_1 frame_number_1
    frame_rate_2 frame_number_2 : ℤ) : Except String FrameStamp :=
  let common_frame_rate := lcmOf frame_rate_1 frame_rate_2
  FrameStamp.make
    ((common_frame_rate / frame_rate_1) * frame_number_1 +
      (common_frame_rate / frame_rate_2) * frame_number_2)
    common_frame_rate

/-- `FrameStamp.__sub__`: subtraction as addition of the negated frame
number. -/
def FrameStamp.sub (a b : FrameStamp) : Except String FrameStamp :=
  FrameStamp.add_frame_stamps a.frame_rate a.frame_number
    b.frame_rate (-b.frame_number)

/-- Exact rational time of a stamp, `frame_number / frame_rate`. -/
def FrameStamp.timeQ (a : FrameStamp) : ℚ :=
  (a.frame_number : ℚ) / (a.frame_rate : ℚ)
mutual

theorem preprocess_eq_self : ∀ v, allFinite v = true → preprocess v = v
  | .float .nan, h => by simp [allFinite] at h
  | .float .inf, h => by simp [allFinite] at h
  | .float .ninf, h => by simp [allFinite] at h
  | .float (.finite q), _ => rfl
  | .int n, _ => rfl
  | .str s, _ => rfl
  | .bool b, _ => rfl
  | .none, _ => rfl
  | .list xs, h => by
    simp only [allFinite] at h
    simp only [preprocess, preprocessL_eq_self xs h]
  | .dict fs, h => by
    simp only [allFinite] at h
    simp only [preprocess, preprocessF_eq_self fs h]

theorem preprocessL_eq_self : ∀ xs, allFiniteL xs = true → preprocessL xs = xs
  | .nil, _ => rfl
  | .cons v tl, h => by
    simp only [allFiniteL, Bool.and_eq_true] at h
    simp only [preprocessL, preprocess_eq_self v h.1, preprocessL_eq_self tl h.2]

theorem preprocessF_eq_self : ∀ fs, allFiniteF fs = true → preprocessF fs = fs
  | .nil, _ => rfl
  | .cons k v tl, h => by
    simp only [allFiniteF, Bool.and_eq_true] at h
    simp only [preprocessF, preprocess_eq_self v h.1, preprocessF_eq_self tl h.2]

end

/-- Claim C3: the numeric sanitizer applied before JSON encoding maps
every NaN float leaf to `0.0`, every `+Infinity` leaf to
`-MIN_SAFE_FLOAT` and every `-Infinity` leaf to `MIN_SAFE_FLOAT`, where
`MIN_SAFE_FLOAT = -1.7976931348623157e308` is a finite double; every
other value (finite floats, ints, strings, bools, None) and the whole
map/sequence structure (keys, order, nesting) pass through unchanged,
recursively at any depth — in particular a tree with only finite floats
is returned exactly as given. -/
theorem preprocess_sanitizes :
    preprocess (.float .nan) = .float (.finite 0) ∧
    preprocess (.float .inf) = .float (.finite (-MIN_SAFE_FLOAT)) ∧
    preprocess (.float .ninf) = .float (.finite MIN_SAFE_FLOAT) ∧
    MIN_SAFE_FLOAT = -(17976931348623157 * 10 ^ 292 : ℚ) ∧
    MIN_SAFE_FLOAT < 0 ∧ |MIN_SAFE_FLOAT| < 2 ^ 1024 ∧
    (∀ q : ℚ, preprocess (.float (.finite q)) = .float (.finite q)) ∧
    (∀ n : ℤ, preprocess (.int n) = .int n) ∧
    (∀ s, preprocess (.str s) = .str s) ∧
    (∀ b, preprocess (.bool b) = .bool b) ∧
    preprocess .none = .none ∧
    (∀ xs, preprocess (.list xs) = .list (preprocessL xs)) ∧
    (∀ fs, preprocess (.dict fs) = .dict (preprocessF fs)) ∧
    preprocessL .nil = .nil ∧
    (∀ v tl, preprocessL (.cons v tl) = .cons (preprocess v) (preprocessL tl)) ∧
    preprocessF .nil = .nil ∧
    (∀ k v tl, preprocessF (.cons k v tl) = .cons k (preprocess v) (preprocessF tl)) ∧
    (∀ v, allFinite v = true → preprocess v = v) := by
  refine ⟨rfl, rfl, rfl, rfl, by norm_num [MIN_SAFE_FLOAT], by
    rw [abs_of_neg (by norm_num [MIN_SAFE_FLOAT])]
    norm_num [MIN_SAFE_FLOAT], fun q => rfl, fun n => rfl, fun s => rfl,
    fun b => rfl, rfl, fun xs => rfl, fun fs => rfl, rfl,
    fun v tl => rfl, rfl, fun k v tl => rfl, preprocess_eq_self⟩

/-- Witness for C3. -/
theorem preprocess_sanitizes_witness :
    allFinite (.list (.cons (.float (.finite (3/2))) (.cons (.int 7) .nil))) = true ∧
    preprocess (.list (.cons (.float (.finite (3/2))) (.cons (.int 7) .nil))) =
      .list (.cons (.float (.finite (3/2))) (.cons (.int 7) .nil)) :=
  ⟨rfl, preprocess_sanitizes.2.2.2.2.2.2.2.2.2.2.2.2.2.2.2.2.2 _ rfl⟩

/-- Claim C2: for every project input and every configuration whose
factor is zero or negative, `transform_dict` and `transform_project`
fail with the value error "Scale factor must be positive" before any
part of the tree is transformed (no transformed output exists), and for
every strictly positive factor this error is never raised — the
transform always returns a result. -/
theorem transform_factor_validation (cfg : TransformConfig) (v : JValue) :
    (cfg.factor ≤ 0 →
      transform_dict cfg v = .error "Scale factor must be positive" ∧
      transform_project cfg v = .error "Scale factor must be positive") ∧
    (0 < cfg.factor →
      ∃ w, transform_dict cfg v = .ok w ∧ transform_project cfg v = .ok w) := by
  constructor
  · intro h
    constructor <;> simp [transform_dict, transform_project, h]
  · intro h
    refine ⟨(match v with
             | .obj fs => .obj (facadeFields cfg fs)
             | v => v), ?_, ?_⟩ <;>
      simp only [transform_dict, transform_project, if_neg (not_le.mpr h)]

/-- Witness for C2. -/
theorem transform_factor_validation_witness :
    transform_dict ⟨.SPATIAL, -1, true⟩ (.obj .nil) =
      .error "Scale factor must be positive" :=
  ((transform_factor_validation ⟨.SPATIAL, -1, true⟩ (.obj .nil)).1 (by norm_num)).1

/-- Claim C7: under a spatial transform with positive factor `f`, a
canvas dimension is multiplied by `f` and rounded to the nearest integer
with ties rounded half-up (`⌊q·f + 1/2⌋`), and the result is always at
least 1; concretely width 1920 and height 1080 at `f = 0.01` give 19 and
11, and at `f = 1.5` give 2880 and 1620. -/
theorem canvas_scaling (f q : ℚ) (h : 0 < f) :
    canvasDim f q = max 1 ⌊q * f + 1/2⌋ ∧
    1 ≤ canvasDim f q ∧
    (∀ cfg : TransformConfig, cfg.transform_type = .SPATIAL →
      facadeField cfg "width" (.num q) = .num ((canvasDim cfg.factor q : ℤ) : ℚ) ∧
      facadeField cfg "height" (.num q) = .num ((canvasDim cfg.factor q : ℤ) : ℚ)) ∧
    transform_dict ⟨.SPATIAL, 1/100, true⟩
      (.obj (JFields.ofList [("width", .num 1920), ("height", .num 1080)])) =
      .ok (.obj (JFields.ofList [("width", .num 19), ("height", .num 11)])) ∧
    transform_dict ⟨.SPATIAL, 3/2, true⟩
      (.obj (JFields.ofList [("width", .num 1920), ("height", .num 1080)])) =
      .ok (.obj (JFields.ofList [("width", .num 2880), ("height", .num 1620)])) := by
  refine ⟨by rw [canvasDim, round_eq], le_max_left _ _, ?_, ?_, ?_⟩
  · intro cfg hc
    constructor <;> simp [facadeField, canvasScaleDim, hc]
  · norm_num [transform_dict, facadeFields, facadeField, canvasScaleDim, canvasDim,
      JFields.ofList, round_eq]
  · norm_num [transform_dict, facadeFields, facadeField, canvasScaleDim, canvasDim,
      JFields.ofList, round_eq]

/-- Witness for C7. -/
theorem canvas_scaling_witness : 1 ≤ canvasDim (3/2) 1080 :=
  (canvas_scaling (3/2) 1080 (by norm_num)).2.1

/-- Claim C8: `detect_version` is a deterministic, side-effect-free
function of the raw project mapping (it is a pure Lean function by
construction): a mapping with version "4.0" (and editRate 60) is
classified `V4_0`, the empty mapping `UNKNOWN`, a mapping with version
"9.0" and editRate 705600000 `V9_0`, one with version "1.0" `V1_0`; and
the `version` field takes priority over the `editRate` disambiguator:
for every editRate whatsoever, a stated version "4.0" (or "1.0", "9.0")
fixes the classification. -/
theorem detect_version_classification :
    detect_version (.obj (JFields.ofList
      [("version", .str "4.0"), ("editRate", .num 60), ("width", .num 1920),
       ("height", .num 1080)])) = .V4_0 ∧
    detect_version (.obj .nil) = .UNKNOWN ∧
    detect_version (.obj (JFields.ofList
      [("version", .str "9.0"), ("editRate", .num 705600000)])) = .V9_0 ∧
    detect_version (.obj (JFields.ofList
      [("version", .str "1.0"), ("editRate", .num 30)])) = .V1_0 ∧
    (∀ e : ℚ, detect_version (.obj (JFields.ofList
      [("version", .str "4.0"), ("editRate", .num e)])) = .V4_0) ∧
    (∀ e : ℚ, detect_version (.obj (JFields.ofList
      [("version", .str "1.0"), ("editRate", .num e)])) = .V1_0) ∧
    (∀ e : ℚ, detect_version (.obj (JFields.ofList
      [("version", .str "9.0"), ("editRate", .num e)])) = .V9_0) := by
  refine ⟨?_, rfl, ?_, ?_, fun e => ?_, fun e => ?_, fun e => ?_⟩ <;>
    simp [detect_version, JFields.ofList, JFields.lookup]

/-- Claim C4: under a temporal transform with positive factor `f`, the
media fields `start`, `duration`, `mediaStart`/`markIn` and
`mediaDuration`/`markOut` are multiplied by `f` and rounded to integer,
except that for media whose `_type` equals "AMFile" with
`preserve_audio_duration` true, `duration` and `mediaDuration` are left
exactly unchanged while `start` is still scaled; concretely
`{_type:"AMFile", start:300, duration:100}` under factor 2.0 with
preservation becomes `{start:600, duration:100}`. -/
theorem temporal_media_scaling (f q : ℚ) (p : Bool) (h : 0 < f) :
    (∀ ia, scaleLeaf ⟨.TEMPORAL, f, p⟩ ia "start" (.num q) =
      .num (roundHalfUp (q * f))) ∧
    (∀ ia, scaleLeaf ⟨.TEMPORAL, f, p⟩ ia "mediaStart" (.num q) =
      .num (roundHalfUp (q * f))) ∧
    (∀ ia, scaleLeaf ⟨.TEMPORAL, f, p⟩ ia "markIn" (.num q) =
      .num (roundHalfUp (q * f))) ∧
    (∀ ia, scaleLeaf ⟨.TEMPORAL, f, p⟩ ia "markOut" (.num q) =
      .num (roundHalfUp (q * f))) ∧
    (scaleLeaf ⟨.TEMPORAL, f, p⟩ false "duration" (.num q) =
      .num (roundHalfUp (q * f))) ∧
    (scaleLeaf ⟨.TEMPORAL, f, p⟩ false "mediaDuration" (.num q) =
      .num (roundHalfUp (q * f))) ∧
    (p = true →
      scaleLeaf ⟨.TEMPORAL, f, p⟩ true "duration" (.num q) = .num q ∧
      scaleLeaf ⟨.TEMPORAL, f, p⟩ true "mediaDuration" (.num q) = .num q) ∧
    (p = false →
      scaleLeaf ⟨.TEMPORAL, f, p⟩ true "duration" (.num q) =
        .num (roundHalfUp (q * f)) ∧
      scaleLeaf ⟨.TEMPORAL, f, p⟩ true "mediaDuration" (.num q) =
        .num (roundHalfUp (q * f))) ∧
    isAudioMedia (JFields.ofList [("_type", .str "AMFile"), ("start", .num 300),
      ("duration", .num 100)]) = true ∧
    transformValue ⟨.TEMPORAL, 2, true⟩ none
      (.obj (JFields.ofList [("_type", .str "AMFile"), ("start", .num 300),
        ("duration", .num 100)])) =
      .obj (JFields.ofList [("_type", .str "AMFile"), ("start", .num 600),
        ("duration", .num 100)]) := by
  refine ⟨fun ia => ?_, fun ia => ?_, fun ia => ?_, fun ia => ?_, ?_, ?_,
    fun hp => ?_, fun hp => ?_, ?_, ?_⟩
  · simp [scaleLeaf, temporalKey, audioPreservedKey]
  · simp [scaleLeaf, temporalKey, audioPreservedKey]
  · simp [scaleLeaf, temporalKey, audioPreservedKey]
  · simp [scaleLeaf, temporalKey, audioPreservedKey]
  · simp [scaleLeaf, temporalKey, audioPreservedKey]
  · simp [scaleLeaf, temporalKey, audioPreservedKey]
  · subst hp
    constructor <;> simp [scaleLeaf, temporalKey, audioPreservedKey]
  · subst hp
    constructor <;> simp [scaleLeaf, temporalKey, audioPreservedKey]
  · rfl
  · norm_num +decide [transformValue, transformFields, transformField, scaleLeaf,
      isAudioMedia, JFields.ofList, JFields.lookup, temporalKey,
      audioPreservedKey, roundHalfUp, round_eq]

/-- Witness for C4. -/
theorem temporal_media_scaling_witness :
    scaleLeaf ⟨.TEMPORAL, 2, true⟩ false "start" (.num 7) =
      .num (roundHalfUp (7 * 2)) :=
  (temporal_media_scaling 2 7 true (by norm_num)).1 false

/-- Claim C5: for every keyframes list, a temporal transform with factor
`f` multiplies each keyframe's `time`, `endTime` and `duration` fields
by `f` while leaving its `value` unchanged, regardless of the owning
parameter's name; a spatial transform leaves the time fields unchanged
and multiplies `value` by the factor exactly when the owning parameter
name matches a spatial pattern; concretely
`[{time:0,value:0.0},{time:100,value:1.0}]` under the spatial parameter
`translation0` with factor 2.0 yields values `[0.0, 2.0]` with times
unchanged, and under temporal factor 2.0 yields times `[0, 200]` with
values unchanged. -/
theorem keyframe_scaling (f q : ℚ) (p pS : Bool) (h : 0 < f) :
    (transformKeyframeField ⟨.TEMPORAL, f, p⟩ pS "time" (.num q) =
      .num (roundHalfUp (q * f))) ∧
    (transformKeyframeField ⟨.TEMPORAL, f, p⟩ pS "endTime" (.num q) =
      .num (roundHalfUp (q * f))) ∧
    (transformKeyframeField ⟨.TEMPORAL, f, p⟩ pS "duration" (.num q) =
      .num (roundHalfUp (q * f))) ∧
    (transformKeyframeField ⟨.TEMPORAL, f, p⟩ pS "value" (.num q) = .num q) ∧
    (transformKeyframeField ⟨.SPATIAL, f, p⟩ true "value" (.num q) =
      .num (q * f)) ∧
    (transformKeyframeField ⟨.SPATIAL, f, p⟩ false "value" (.num q) = .num q) ∧
    (∀ k, k ≠ "value" →
      transformKeyframeField ⟨.SPATIAL, f, p⟩ pS k (.num q) = .num q) ∧
    (∀ (cfg : TransformConfig) (ia pS0 : Bool) (pname : String) (ks : JList),
      pname ≠ "editRate" → pname ≠ "range" → rectKey pname = false →
      transformField cfg ia pS0 pname (.obj (.cons "keyframes" (.arr ks) .nil)) =
        .obj (.cons "keyframes"
          (.arr (transformKeyframeList cfg (spatialParamKey pname) ks)) .nil)) ∧
    transformField ⟨.SPATIAL, 2, true⟩ false false "translation0"
      (.obj (.cons "keyframes" (.arr (JList.ofList
        [.obj (JFields.ofList [("time", .num 0), ("value", .num 0)]),
         .obj (JFields.ofList [("time", .num 100), ("value", .num 1)])])) .nil)) =
      .obj (.cons "keyframes" (.arr (JList.ofList
        [.obj (JFields.ofList [("time", .num 0), ("value", .num 0)]),
         .obj (JFields.ofList [("time", .num 100), ("value", .num 2)])])) .nil) ∧
    transformField ⟨.TEMPORAL, 2, true⟩ false false "opacity"
      (.obj (.cons "keyframes" (.arr (JList.ofList
        [.obj (JFields.ofList [("time", .num 0), ("value", .num 0)]),
         .obj (JFields.ofList [("time", .num 100), ("value", .num 1)])])) .nil)) =
      .obj (.cons "keyframes" (.arr (JList.ofList
        [.obj (JFields.ofList [("time", .num 0), ("value", .num 0)]),
         .obj (JFields.ofList [("time", .num 200), ("value", .num 1)])])) .nil) := by
  refine ⟨?_, ?_, ?_, ?_, ?_, ?_, fun k hk => ?_, ?_, ?_, ?_⟩
  · simp [transformKeyframeField, keyframeTimeKey]
  · simp [transformKeyframeField, keyframeTimeKey]
  · simp [transformKeyframeField, keyframeTimeKey]
  · simp [transformKeyframeField, keyframeTimeKey]
  · simp [transformKeyframeField]
  · simp [transformKeyframeField]
  · simp [transformKeyframeField, hk]
  · intro cfg ia pS0 pname ks h1 h2 h3
    simp +decide [transformField, transformFields, isAudioMedia, JFields.lookup,
      h1, h2, h3]
  · norm_num +decide [transformField, transformFields, transformKeyframeList,
      transformKeyframeEntry, transformKeyframeFields, transformKeyframeField,
      keyframeTimeKey, spatialParamKey, spatialIntKey, spatialScaleKey,
      JList.ofList, JFields.ofList, roundHalfUp, round_eq]
  · norm_num +decide [transformField, transformFields, transformKeyframeList,
      transformKeyframeEntry, transformKeyframeFields, transformKeyframeField,
      keyframeTimeKey, spatialParamKey, spatialIntKey, spatialScaleKey,
      JList.ofList, JFields.ofList, roundHalfUp, round_eq]

/-- Witness for C5. -/
theorem keyframe_scaling_witness :
    transformKeyframeField ⟨.TEMPORAL, 2, true⟩ false "time" (.num 100) =
      .num (roundHalfUp (100 * 2)) :=
  (keyframe_scaling 2 100 true false (by norm_num)).1

theorem skel_scaleLeaf (cfg : TransformConfig) (ia : Bool) (k : String) :
    ∀ v, skel (scaleLeaf cfg ia k v) = skel v := by
  intro v
  rcases cfg with ⟨t, f, p⟩
  cases v <;> cases t <;> simp [scaleLeaf, skel] <;> split_ifs <;> simp [skel]

theorem skel_transformKeyframeField (cfg : TransformConfig) (pS : Bool)
    (k : String) : ∀ v, skel (transformKeyframeField cfg pS k v) = skel v := by
  intro v
  rcases cfg with ⟨t, f, p⟩
  cases v <;> cases t <;> simp [transformKeyframeField, skel] <;>
    split_ifs <;> simp [skel]

theorem skelF_transformKeyframeFields (cfg : TransformConfig) (pS : Bool) :
    ∀ fs, skelF (transformKeyframeFields cfg pS fs) = skelF fs
  | .nil => rfl
  | .cons k v tl => by
    simp only [transformKeyframeFields, skelF, skel_transformKeyframeField,
      skelF_transformKeyframeFields cfg pS tl]

theorem skel_transformKeyframeEntry (cfg : TransformConfig) (pS : Bool) :
    ∀ v, skel (transformKeyframeEntry cfg pS v) = skel v := by
  intro v
  cases v <;> simp [transformKeyframeEntry, skel, skelF_transformKeyframeFields]

theorem skelL_transformKeyframeList (cfg : TransformConfig) (pS : Bool) :
    ∀ xs, skelL (transformKeyframeList cfg pS xs) = skelL xs
  | .nil => rfl
  | .cons v tl => by
    simp only [transformKeyframeList, skelL, skel_transformKeyframeEntry,
      skelL_transformKeyframeList cfg pS tl]

theorem skel_scaleRectElem (f : ℚ) : ∀ v, skel (scaleRectElem f v) = skel v := by
  intro v
  cases v <;> simp [scaleRectElem, skel]

theorem skelL_scaleRectList (f : ℚ) :
    ∀ xs, skelL (scaleRectList f xs) = skelL xs
  | .nil => rfl
  | .cons v tl => by
    simp only [scaleRectList, skelL, skel_scaleRectElem, skelL_scaleRectList f tl]

mutual

theorem skel_transformValue (cfg : TransformConfig) :
    ∀ (pk : Option String) (v : JValue),
      skel (transformValue cfg pk v) = skel v
  | _, .num _ => rfl
  | _, .str _ => rfl
  | _, .bool _ => rfl
  | _, .null => rfl
  | pk, .arr xs => by
    simp only [transformValue, skel, skel_transformElems cfg pk xs]
  | pk, .obj fs => by
    simp only [transformValue, skel, skel_transformFields cfg _ _ fs]

theorem skel_transformElems (cfg : TransformConfig) :
    ∀ (pk : Option String) (xs : JList),
      skelL (transformElems cfg pk xs) = skelL xs
  | _, .nil => rfl
  | pk, .cons v tl => by
    simp only [transformElems, skelL, skel_transformValue cfg pk v,
      skel_transformElems cfg pk tl]

theorem skel_transformFields (cfg : TransformConfig) :
    ∀ (ia pS : Bool) (fs : JFields),
      skelF (transformFields cfg ia pS fs) = skelF fs
  | _, _, .nil => rfl
  | ia, pS, .cons k v tl => by
    simp only [transformFields, skelF, skel_transformField cfg ia pS k v,
      skel_transformFields cfg ia pS tl]

theorem skel_transformField (cfg : TransformConfig) :
    ∀ (ia pS : Bool) (k : String) (v : JValue),
      skel (transformField cfg ia pS k v) = skel v
  | ia, pS, k, .arr xs => by
    simp only [transformField]
    split_ifs <;>
      simp only [skel, skelL_transformKeyframeList, skelL_scaleRectList,
        skel_transformElems cfg (some k) xs]
  | ia, pS, k, .obj fs => by
    simp only [transformField]
    split_ifs <;>
      simp only [skel, skel_transformFields cfg (isAudioMedia fs)
        (spatialParamKey k) fs]
  | ia, pS, k, .num q => skel_scaleLeaf cfg ia k (.num q)
  | _, _, _, .str _ => rfl
  | _, _, _, .bool _ => rfl
  | _, _, _, .null => rfl

end

theorem skel_facadeField (cfg : TransformConfig) (k : String) :
    ∀ v, skel (facadeField cfg k v) = skel v := by
  intro v
  unfold facadeField
  split_ifs
  · cases v <;> simp [canvasScaleDim, skel]
  · exact skel_transformValue cfg none v
  · rfl

theorem skelF_facadeFields (cfg : TransformConfig) :
    ∀ fs, skelF (facadeFields cfg fs) = skelF fs
  | .nil => rfl
  | .cons k v tl => by
    simp only [facadeFields, skelF, skel_facadeField,
      skelF_facadeFields cfg tl]

/-- Claim C1: for every input project tree and every transform (spatial
or temporal), the output of `transform_dict`/`transform_project` has
exactly the same keys and structure as the input: no keys added or
removed, sequences keep their length and order, and every non-numeric
leaf (string, bool, null) equals the corresponding input leaf even when
its key matches a scaling pattern — only numeric leaves may differ.
This is expressed as equality of the `skel` erasures, which forget
exactly the numeric leaf values and nothing else. -/
theorem transform_preserves_structure (cfg : TransformConfig) (v w : JValue)
    (h : transform_dict cfg v = .ok w ∨ transform_project cfg v = .ok w) :
    skel w = skel v := by
  have h' : transform_dict cfg v = .ok w := by
    rcases h with h | h
    · exact h
    · exact h
  by_cases hf : cfg.factor ≤ 0
  · simp [transform_dict, hf] at h'
  · simp only [transform_dict, if_neg hf, Except.ok.injEq] at h'
    subst h'
    cases v <;> simp only [skel]
    exact congrArg JValue.obj (skelF_facadeFields cfg _)

/-- Witness for C1. -/
theorem transform_preserves_structure_witness :
    skel (.obj (.cons "width" (.num 3840) .nil)) =
      skel (.obj (.cons "width" (.num 1920) .nil)) :=
  transform_preserves_structure ⟨.SPATIAL, 2, true⟩ _ _
    (Or.inl (by norm_num +decide [transform_dict, facadeFields, facadeField,
      canvasScaleDim, canvasDim, round_eq]))

theorem scaleLeaf_num_shape (cfg : TransformConfig) (ia : Bool) (k : String)
    (q : ℚ) : ∃ q', scaleLeaf cfg ia k (.num q) = .num q' := by
  rcases cfg with ⟨t, f, p⟩
  cases t <;> simp only [scaleLeaf] <;> split_ifs <;> exact ⟨_, rfl⟩

theorem tkf_num_shape (cfg : TransformConfig) (pS : Bool) (k : String)
    (q : ℚ) : ∃ q', transformKeyframeField cfg pS k (.num q) = .num q' := by
  rcases cfg with ⟨t, f, p⟩
  cases t <;> simp only [transformKeyframeField] <;> split_ifs <;>
    exact ⟨_, rfl⟩

theorem transformField_arr_shape (cfg : TransformConfig) (ia pS : Bool)
    (k : String) (xs : JList) :
    ∃ ys, transformField cfg ia pS k (.arr xs) = .arr ys := by
  simp only [transformField]
  split_ifs <;> exact ⟨_, rfl⟩

theorem transformField_obj_shape (cfg : TransformConfig) (ia pS : Bool)
    (k : String) (fs : JFields) :
    ∃ gs, transformField cfg ia pS k (.obj fs) = .obj gs := by
  simp only [transformField]
  split_ifs <;> exact ⟨_, rfl⟩

theorem cnF_keyframes (cfg : TransformConfig) (K : String) (pS : Bool)
    (hK : ∀ pS q, transformKeyframeField cfg pS K (.num q) = .num q) :
    ∀ fs, collectNumF K (transformKeyframeFields cfg pS fs) = collectNumF K fs
  | .nil => rfl
  | .cons k v tl => by
    cases v with
    | num q =>
      by_cases hk : k = K
      · simp [transformKeyframeFields, collectNumF, hk, hK, numOnly, collectNum,
          cnF_keyframes cfg K pS hK tl]
      · obtain ⟨q', e⟩ := tkf_num_shape cfg pS k q
        simp [transformKeyframeFields, collectNumF, e, numOnly, hk,
          collectNum, cnF_keyframes cfg K pS hK tl]
    | str s =>
      simp [transformKeyframeFields, transformKeyframeField, collectNumF,
        cnF_keyframes cfg K pS hK tl]
    | bool b =>
      simp [transformKeyframeFields, transformKeyframeField, collectNumF,
        cnF_keyframes cfg K pS hK tl]
    | null =>
      simp [transformKeyframeFields, transformKeyframeField, collectNumF,
        cnF_keyframes cfg K pS hK tl]
    | arr xs =>
      simp [transformKeyframeFields, transformKeyframeField, collectNumF,
        cnF_keyframes cfg K pS hK tl]
    | obj fs =>
      simp [transformKeyframeFields, transformKeyframeField, collectNumF,
        cnF_keyframes cfg K pS hK tl]

theorem cn_keyframeEntry (cfg : TransformConfig) (K : String) (pS : Bool)
    (hK : ∀ pS q, transformKeyframeField cfg pS K (.num q) = .num q) :
    ∀ v, collectNum K (transformKeyframeEntry cfg pS v) = collectNum K v := by
  intro v
  cases v <;>
    simp [transformKeyframeEntry, collectNum, cnF_keyframes cfg K pS hK]

theorem cnL_keyframes (cfg : TransformConfig) (K : String) (pS : Bool)
    (hK : ∀ pS q, transformKeyframeField cfg pS K (.num q) = .num q) :
    ∀ xs, collectNumL K (transformKeyframeList cfg pS xs) = collectNumL K xs
  | .nil => rfl
  | .cons v tl => by
    simp only [transformKeyframeList, collectNumL,
      cn_keyframeEntry cfg K pS hK v, cnL_keyframes cfg K pS hK tl]

theorem cn_rectElem (K : String) (f : ℚ) :
    ∀ v, collectNum K (scaleRectElem f v) = collectNum K v := by
  intro v
  cases v <;> simp [scaleRectElem, collectNum]

theorem cnL_rect (K : String) (f : ℚ) :
    ∀ xs, collectNumL K (scaleRectList f xs) = collectNumL K xs
  | .nil => rfl
  | .cons v tl => by
    simp only [scaleRectList, collectNumL, cn_rectElem K f v, cnL_rect K f tl]

theorem numOnly_transformField (cfg : TransformConfig) (K : String)
    (hL : ∀ ia q, scaleLeaf cfg ia K (.num q) = .num q) (ia pS : Bool)
    (k : String) (v : JValue) :
    (if k == K then numOnly (transformField cfg ia pS k v) else []) =
      (if k == K then numOnly v else []) := by
  by_cases hk : k = K
  · subst hk
    cases v with
    | num q => simp [transformField, hL, numOnly]
    | arr xs =>
      obtain ⟨ys, e⟩ := transformField_arr_shape cfg ia pS k xs
      simp [e, numOnly]
    | obj fs =>
      obtain ⟨gs, e⟩ := transformField_obj_shape cfg ia pS k fs
      simp [e, numOnly]
    | str s => simp [transformField, numOnly]
    | bool b => simp [transformField, numOnly]
    | null => simp [transformField, numOnly]
  · simp [hk]

mutual

theorem cn_transformValue (cfg : TransformConfig) (K : String)
    (hL : ∀ ia q, scaleLeaf cfg ia K (.num q) = .num q)
    (hK : ∀ pS q, transformKeyframeField cfg pS K (.num q) = .num q) :
    ∀ (pk : Option String) (v : JValue),
      collectNum K (transformValue cfg pk v) = collectNum K v
  | _, .num _ => rfl
  | _, .str _ => rfl
  | _, .bool _ => rfl
  | _, .null => rfl
  | pk, .arr xs => by
    simp only [transformValue, collectNum, cn_transformElems cfg K hL hK pk xs]
  | pk, .obj fs => by
    simp only [transformValue, collectNum,
      cn_transformFields cfg K hL hK _ _ fs]

theorem cn_transformElems (cfg : TransformConfig) (K : String)
    (hL : ∀ ia q, scaleLeaf cfg ia K (.num q) = .num q)
    (hK : ∀ pS q, transformKeyframeField cfg pS K (.num q) = .num q) :
    ∀ (pk : Option String) (xs : JList),
      collectNumL K (transformElems cfg pk xs) = collectNumL K xs
  | _, .nil => rfl
  | pk, .cons v tl => by
    simp only [transformElems, collectNumL,
      cn_transformValue cfg K hL hK pk v, cn_transformElems cfg K hL hK pk tl]

theorem cn_transformFields (cfg : TransformConfig) (K : String)
    (hL : ∀ ia q, scaleLeaf cfg ia K (.num q) = .num q)
    (hK : ∀ pS q, transformKeyframeField cfg pS K (.num q) = .num q) :
    ∀ (ia pS : Bool) (fs : JFields),
      collectNumF K (transformFields cfg ia pS fs) = collectNumF K fs
  | _, _, .nil => rfl
  | ia, pS, .cons k v tl => by
    simp only [transformFields, collectNumF,
      cn_transformField cfg K hL hK ia pS k v,
      cn_transformFields cfg K hL hK ia pS tl,
      numOnly_transformField cfg K hL ia pS k v]

theorem cn_transformField (cfg : TransformConfig) (K : String)
    (hL : ∀ ia q, scaleLeaf cfg ia K (.num q) = .num q)
    (hK : ∀ pS q, transformKeyframeField cfg pS K (.num q) = .num q) :
    ∀ (ia pS : Bool) (k : String) (v : JValue),
      collectNum K (transformField cfg ia pS k v) = collectNum K v
  | ia, pS, k, .arr xs => by
    simp only [transformField]
    split_ifs
    · rfl
    · simp only [collectNum]
      exact cnL_keyframes cfg K pS hK xs
    · rfl
    · simp only [collectNum]
      exact cnL_rect K cfg.factor xs
    · rfl
    · simp only [collectNum]
      exact cn_transformElems cfg K hL hK (some k) xs
  | ia, pS, k, .obj fs => by
    simp only [transformField]
    split_ifs
    · rfl
    · rfl
    · simp only [collectNum]
      exact cn_transformFields cfg K hL hK _ _ fs
  | ia, pS, k, .num q => by
    obtain ⟨q', e⟩ := scaleLeaf_num_shape cfg ia k q
    simp [transformField, e, collectNum]
  | _, _, _, .str _ => rfl
  | _, _, _, .bool _ => rfl
  | _, _, _, .null => rfl

end

theorem cn_facadeField (cfg : TransformConfig) (K : String)
    (hL : ∀ ia q, scaleLeaf cfg ia K (.num q) = .num q)
    (hK : ∀ pS q, transformKeyframeField cfg pS K (.num q) = .num q) :
    ∀ (k : String) (v : JValue),
      collectNum K (facadeField cfg k v) = collectNum K v := by
  intro k v
  unfold facadeField
  split_ifs
  · cases v <;> simp [canvasScaleDim, collectNum]
  · exact cn_transformValue cfg K hL hK none v
  · rfl

theorem numOnly_facadeField (cfg : TransformConfig) (K : String)
    (hFac : ∀ v, facadeField cfg K v = v) (k : String) (v : JValue) :
    (if k == K then numOnly (facadeField cfg k v) else []) =
      (if k == K then numOnly v else []) := by
  by_cases hk : k = K
  · subst hk
    rw [hFac]
  · simp [hk]

theorem cnF_facade (cfg : TransformConfig) (K : String)
    (hL : ∀ ia q, scaleLeaf cfg ia K (.num q) = .num q)
    (hK : ∀ pS q, transformKeyframeField cfg pS K (.num q) = .num q)
    (hFac : ∀ v, facadeField cfg K v = v) :
    ∀ fs, collectNumF K (facadeFields cfg fs) = collectNumF K fs
  | .nil => rfl
  | .cons k v tl => by
    simp only [facadeFields, collectNumF, cn_facadeField cfg K hL hK k v,
      cnF_facade cfg K hL hK hFac tl, numOnly_facadeField cfg K hFac k v]

theorem cn_transform_dict (cfg : TransformConfig) (K : String)
    (hL : ∀ ia q, scaleLeaf cfg ia K (.num q) = .num q)
    (hK : ∀ pS q, transformKeyframeField cfg pS K (.num q) = .num q)
    (hFac : ∀ v, facadeField cfg K v = v) (v w : JValue)
    (h : transform_dict cfg v = .ok w) : collectNum K w = collectNum K v := by
  by_cases hf : cfg.factor ≤ 0
  · simp [transform_dict, hf] at h
  · simp only [transform_dict, if_neg hf, Except.ok.injEq] at h
    subst h
    cases v <;> simp only [collectNum]
    exact cnF_facade cfg K hL hK hFac _

theorem cvF_keyframes (cfg : TransformConfig) (K : String) (pS : Bool)
    (hKv : ∀ pS v, transformKeyframeField cfg pS K v = v) :
    ∀ fs, collectValF K (transformKeyframeFields cfg pS fs) = collectValF K fs
  | .nil => rfl
  | .cons k v tl => by
    by_cases hk : k = K
    · simp [transformKeyframeFields, collectValF, hk, hKv,
        cvF_keyframes cfg K pS hKv tl]
    · cases v with
      | num q =>
        obtain ⟨q', e⟩ := tkf_num_shape cfg pS k q
        simp [transformKeyframeFields, collectValF, e, hk, collectVal,
          cvF_keyframes cfg K pS hKv tl]
      | str s =>
        simp [transformKeyframeFields, transformKeyframeField, collectValF,
          hk, cvF_keyframes cfg K pS hKv tl]
      | bool b =>
        simp [transformKeyframeFields, transformKeyframeField, collectValF,
          hk, cvF_keyframes cfg K pS hKv tl]
      | null =>
        simp [transformKeyframeFields, transformKeyframeField, collectValF,
          hk, cvF_keyframes cfg K pS hKv tl]
      | arr xs =>
        simp [transformKeyframeFields, transformKeyframeField, collectValF,
          hk, cvF_keyframes cfg K pS hKv tl]
      | obj fs =>
        simp [transformKeyframeFields, transformKeyframeField, collectValF,
          hk, cvF_keyframes cfg K pS hKv tl]

theorem cv_keyframeEntry (cfg : TransformConfig) (K : String) (pS : Bool)
    (hKv : ∀ pS v, transformKeyframeField cfg pS K v = v) :
    ∀ v, collectVal K (transformKeyframeEntry cfg pS v) = collectVal K v := by
  intro v
  cases v <;>
    simp [transformKeyframeEntry, collectVal, cvF_keyframes cfg K pS hKv]

theorem cvL_keyframes (cfg : TransformConfig) (K : String) (pS : Bool)
    (hKv : ∀ pS v, transformKeyframeField cfg pS K v = v) :
    ∀ xs, collectValL K (transformKeyframeList cfg pS xs) = collectValL K xs
  | .nil => rfl
  | .cons v tl => by
    simp only [transformKeyframeList, collectValL,
      cv_keyframeEntry cfg K pS hKv v, cvL_keyframes cfg K pS hKv tl]

theorem cv_rectElem (K : String) (f : ℚ) :
    ∀ v, collectVal K (scaleRectElem f v) = collectVal K v := by
  intro v
  cases v <;> simp [scaleRectElem, collectVal]

theorem cvL_rect (K : String) (f : ℚ) :
    ∀ xs, collectValL K (scaleRectList f xs) = collectValL K xs
  | .nil => rfl
  | .cons v tl => by
    simp only [scaleRectList, collectValL, cv_rectElem K f v, cvL_rect K f tl]

theorem valHead_transformField (cfg : TransformConfig) (K : String)
    (hField : ∀ ia pS v, transformField cfg ia pS K v = v) (ia pS : Bool)
    (k : String) (v : JValue) :
    (if k == K then [transformField cfg ia pS k v] else []) =
      (if k == K then [v] else []) := by
  by_cases hk : k = K
  · simp [hk, hField]
  · simp [hk]

mutual

theorem cv_transformValue (cfg : TransformConfig) (K : String)
    (hField : ∀ ia pS v, transformField cfg ia pS K v = v)
    (hKv : ∀ pS v, transformKeyframeField cfg pS K v = v) :
    ∀ (pk : Option String) (v : JValue),
      collectVal K (transformValue cfg pk v) = collectVal K v
  | _, .num _ => rfl
  | _, .str _ => rfl
  | _, .bool _ => rfl
  | _, .null => rfl
  | pk, .arr xs => by
    simp only [transformValue, collectVal,
      cv_transformElems cfg K hField hKv pk xs]
  | pk, .obj fs => by
    simp only [transformValue, collectVal,
      cv_transformFields cfg K hField hKv _ _ fs]

theorem cv_transformElems (cfg : TransformConfig) (K : String)
    (hField : ∀ ia pS v, transformField cfg ia pS K v = v)
    (hKv : ∀ pS v, transformKeyframeField cfg pS K v = v) :
    ∀ (pk : Option String) (xs : JList),
      collectValL K (transformElems cfg pk xs) = collectValL K xs
  | _, .nil => rfl
  | pk, .cons v tl => by
    simp only [transformElems, collectValL,
      cv_transformValue cfg K hField hKv pk v,
      cv_transformElems cfg K hField hKv pk tl]

theorem cv_transformFields (cfg : TransformConfig) (K : String)
    (hField : ∀ ia pS v, transformField cfg ia pS K v = v)
    (hKv : ∀ pS v, transformKeyframeField cfg pS K v = v) :
    ∀ (ia pS : Bool) (fs : JFields),
      collectValF K (transformFields cfg ia pS fs) = collectValF K fs
  | _, _, .nil => rfl
  | ia, pS, .cons k v tl => by
    simp only [transformFields, collectValF,
      cv_transformField cfg K hField hKv ia pS k v,
      cv_transformFields cfg K hField hKv ia pS tl,
      valHead_transformField cfg K hField ia pS k v]

theorem cv_transformField (cfg : TransformConfig) (K : String)
    (hField : ∀ ia pS v, transformField cfg ia pS K v = v)
    (hKv : ∀ pS v, transformKeyframeField cfg pS K v = v) :
    ∀ (ia pS : Bool) (k : String) (v : JValue),
      collectVal K (transformField cfg ia pS k v) = collectVal K v
  | ia, pS, k, .arr xs => by
    simp only [transformField]
    split_ifs
    · rfl
    · simp only [collectVal]
      exact cvL_keyframes cfg K pS hKv xs
    · rfl
    · simp only [collectVal]
      exact cvL_rect K cfg.factor xs
    · rfl
    · simp only [collectVal]
      exact cv_transformElems cfg K hField hKv (some k) xs
  | ia, pS, k, .obj fs => by
    simp only [transformField]
    split_ifs
    · rfl
    · rfl
    · simp only [collectVal]
      exact cv_transformFields cfg K hField hKv _ _ fs
  | ia, pS, k, .num q => by
    obtain ⟨q', e⟩ := scaleLeaf_num_shape cfg ia k q
    simp [transformField, e, collectVal]
  | _, _, _, .str _ => rfl
  | _, _, _, .bool _ => rfl
  | _, _, _, .null => rfl

end

theorem cv_facadeField (cfg : TransformConfig) (K : String)
    (hField : ∀ ia pS v, transformField cfg ia pS K v = v)
    (hKv : ∀ pS v, transformKeyframeField cfg pS K v = v) :
    ∀ (k : String) (v : JValue),
      collectVal K (facadeField cfg k v) = collectVal K v := by
  intro k v
  unfold facadeField
  split_ifs
  · cases v <;> simp [canvasScaleDim, collectVal]
  · exact cv_transformValue cfg K hField hKv none v
  · rfl

theorem valHead_facadeField (cfg : TransformConfig) (K : String)
    (hFac : ∀ v, facadeField cfg K v = v) (k : String) (v : JValue) :
    (if k == K then [facadeField cfg k v] else []) =
      (if k == K then [v] else []) := by
  by_cases hk : k = K
  · simp [hk, hFac]
  · simp [hk]

theorem cvF_facade (cfg : TransformConfig) (K : String)
    (hField : ∀ ia pS v, transformField cfg ia pS K v = v)
    (hKv : ∀ pS v, transformKeyframeField cfg pS K v = v)
    (hFac : ∀ v, facadeField cfg K v = v) :
    ∀ fs, collectValF K (facadeFields cfg fs) = collectValF K fs
  | .nil => rfl
  | .cons k v tl => by
    simp only [facadeFields, collectValF, cv_facadeField cfg K hField hKv k v,
      cvF_facade cfg K hField hKv hFac tl, valHead_facadeField cfg K hFac k v]

theorem cv_transform_dict (cfg : TransformConfig) (K : String)
    (hField : ∀ ia pS v, transformField cfg ia pS K v = v)
    (hKv : ∀ pS v, transformKeyframeField cfg pS K v = v)
    (hFac : ∀ v, facadeField cfg K v = v) (v w : JValue)
    (h : transform_dict cfg v = .ok w) : collectVal K w = collectVal K v := by
  by_cases hf : cfg.factor ≤ 0
  · simp [transform_dict, hf] at h
  · simp only [transform_dict, if_neg hf, Except.ok.injEq] at h
    subst h
    cases v <;> simp only [collectVal]
    exact cvF_facade cfg K hField hKv hFac _

theorem scaleLeaf_spatial_skips (cfg : TransformConfig)
    (hc : cfg.transform_type = .SPATIAL) (K : String)
    (h1 : spatialIntKey K = false) (h2 : spatialScaleKey K = false) :
    ∀ (ia : Bool) (q : ℚ), scaleLeaf cfg ia K (.num q) = .num q := by
  intro ia q
  rcases cfg with ⟨t, f, p⟩
  cases hc
  simp [scaleLeaf, h1, h2]

theorem scaleLeaf_temporal_skips (cfg : TransformConfig)
    (hc : cfg.transform_type = .TEMPORAL) (K : String)
    (h1 : temporalKey K = false) :
    ∀ (ia : Bool) (q : ℚ), scaleLeaf cfg ia K (.num q) = .num q := by
  intro ia q
  rcases cfg with ⟨t, f, p⟩
  cases hc
  simp [scaleLeaf, h1]

theorem tkf_spatial_skips (cfg : TransformConfig)
    (hc : cfg.transform_type = .SPATIAL) (K : String) (h1 : K ≠ "value") :
    ∀ (pS : Bool) (v : JValue), transformKeyframeField cfg pS K v = v := by
  intro pS v
  rcases cfg with ⟨t, f, p⟩
  cases hc
  cases v <;> simp [transformKeyframeField, h1]

theorem tkf_temporal_skips (cfg : TransformConfig)
    (hc : cfg.transform_type = .TEMPORAL) (K : String)
    (h1 : keyframeTimeKey K = false) :
    ∀ (pS : Bool) (v : JValue), transformKeyframeField cfg pS K v = v := by
  intro pS v
  rcases cfg with ⟨t, f, p⟩
  cases hc
  cases v <;> simp [transformKeyframeField, h1]

theorem facadeField_skips (cfg : TransformConfig) (K : String)
    (h1 : ((K == "width" || K == "height") &&
      cfg.transform_type == TransformType.SPATIAL) = false)
    (h2 : (K == "sourceBin" || K == "timeline") = false) :
    ∀ v, facadeField cfg K v = v := by
  intro v
  simp [facadeField, h1, h2]

theorem transformField_skips_range (cfg : TransformConfig)
    (hc : cfg.transform_type = .SPATIAL) :
    ∀ (ia pS : Bool) (v : JValue), transformField cfg ia pS "range" v = v := by
  intro ia pS v
  rcases cfg with ⟨t, f, p⟩
  cases hc
  cases v <;> simp +decide [transformField, scaleLeaf, rectKey, spatialIntKey,
    spatialScaleKey]

theorem transformField_skips_rect (cfg : TransformConfig)
    (hc : cfg.transform_type = .TEMPORAL) :
    ∀ (ia pS : Bool) (v : JValue), transformField cfg ia pS "rect" v = v := by
  intro ia pS v
  rcases cfg with ⟨t, f, p⟩
  cases hc
  cases v <;> simp +decide [transformField, scaleLeaf, rectKey, temporalKey]

theorem transformField_skips_editRate (cfg : TransformConfig) :
    ∀ (ia pS : Bool) (v : JValue),
      transformField cfg ia pS "editRate" v = v := by
  intro ia pS v
  rcases cfg with ⟨t, f, p⟩
  cases v <;> cases t <;> simp +decide [transformField, scaleLeaf, rectKey,
    spatialIntKey, spatialScaleKey, temporalKey]

theorem tkf_skips_editRate (cfg : TransformConfig) :
    ∀ (pS : Bool) (v : JValue),
      transformKeyframeField cfg pS "editRate" v = v := by
  intro pS v
  rcases cfg with ⟨t, f, p⟩
  cases v <;> cases t <;> simp +decide [transformKeyframeField, keyframeTimeKey]

/-- Claim C6: a spatial transform leaves every `start`, `duration` and
`editRate` value in the tree equal to the input, and never changes a
`range` value; a temporal transform leaves every `width`, `height` and
`rect` value equal to the input; and `editRate` is never changed by
either transform kind. -/
theorem scaling_mode_invariants (cfg : TransformConfig) (v w : JValue)
    (h : transform_dict cfg v = .ok w) :
    (cfg.transform_type = .SPATIAL →
      collectNum "start" w = collectNum "start" v ∧
      collectNum "duration" w = collectNum "duration" v ∧
      collectNum "editRate" w = collectNum "editRate" v ∧
      collectVal "range" w = collectVal "range" v) ∧
    (cfg.transform_type = .TEMPORAL →
      collectNum "width" w = collectNum "width" v ∧
      collectNum "height" w = collectNum "height" v ∧
      collectNum "editRate" w = collectNum "editRate" v ∧
      collectVal "rect" w = collectVal "rect" v) ∧
    collectVal "editRate" w = collectVal "editRate" v := by
  refine ⟨fun hc => ⟨?_, ?_, ?_, ?_⟩, fun hc => ⟨?_, ?_, ?_, ?_⟩, ?_⟩
  · exact cn_transform_dict cfg "start"
      (scaleLeaf_spatial_skips cfg hc _ (by decide) (by decide))
      (fun pS q => tkf_spatial_skips cfg hc _ (by decide) pS (.num q))
      (facadeField_skips cfg _ (by simp +decide) (by decide)) v w h
  · exact cn_transform_dict cfg "duration"
      (scaleLeaf_spatial_skips cfg hc _ (by decide) (by decide))
      (fun pS q => tkf_spatial_skips cfg hc _ (by decide) pS (.num q))
      (facadeField_skips cfg _ (by simp +decide) (by decide)) v w h
  · exact cn_transform_dict cfg "editRate"
      (scaleLeaf_spatial_skips cfg hc _ (by decide) (by decide))
      (fun pS q => tkf_spatial_skips cfg hc _ (by decide) pS (.num q))
      (facadeField_skips cfg _ (by simp +decide) (by decide)) v w h
  · exact cv_transform_dict cfg "range" (transformField_skips_range cfg hc)
      (tkf_spatial_skips cfg hc _ (by decide))
      (facadeField_skips cfg _ (by simp +decide) (by decide)) v w h
  · exact cn_transform_dict cfg "width"
      (scaleLeaf_temporal_skips cfg hc _ (by decide))
      (fun pS q => tkf_temporal_skips cfg hc _ (by decide) pS (.num q))
      (facadeField_skips cfg _ (by rw [hc]; decide) (by decide)) v w h
  · exact cn_transform_dict cfg "height"
      (scaleLeaf_temporal_skips cfg hc _ (by decide))
      (fun pS q => tkf_temporal_skips cfg hc _ (by decide) pS (.num q))
      (facadeField_skips cfg _ (by rw [hc]; decide) (by decide)) v w h
  · exact cn_transform_dict cfg "editRate"
      (scaleLeaf_temporal_skips cfg hc _ (by decide))
      (fun pS q => tkf_temporal_skips cfg hc _ (by decide) pS (.num q))
      (facadeField_skips cfg _ (by simp +decide) (by decide)) v w h
  · exact cv_transform_dict cfg "rect" (transformField_skips_rect cfg hc)
      (tkf_temporal_skips cfg hc _ (by decide))
      (facadeField_skips cfg _ (by simp +decide) (by decide)) v w h
  · exact cv_transform_dict cfg "editRate" (transformField_skips_editRate cfg)
      (tkf_skips_editRate cfg)
      (facadeField_skips cfg _ (by simp +decide) (by decide)) v w h

/-- Witness for C6. -/
theorem scaling_mode_invariants_witness :
    collectNum "start"
        (.obj (.cons "editRate" (.num 60) (.cons "width" (.num 200) .nil))) =
      collectNum "start"
        (.obj (.cons "editRate" (.num 60) (.cons "width" (.num 100) .nil))) :=
  ((scaling_mode_invariants ⟨.SPATIAL, 2, true⟩ _ _
    (by norm_num +decide [transform_dict, facadeFields, facadeField,
      canvasScaleDim, canvasDim, round_eq])).1 rfl).1

/-- Counterexample for C9: canvas width 100, first factor 21/200 = 0.105,
second factor 10: scaling twice gives 110, scaling once by the product
1.05 gives 105 — they differ by 5, far more than the claimed 1 unit. -/
theorem canvas_compose_counterexample :
    ¬ |canvasDim 10 ((canvasDim (21/200) 100 : ℤ) : ℚ) -
        canvasDim ((21/200) * 10) 100| ≤ 1 := by
  norm_num [canvasDim, round_eq]

theorem round_nonpos_of_lt_half (x : ℚ) (h : x < 1/2) : round x ≤ 0 := by
  rw [round_eq]
  have h1 : ⌊x + 1/2⌋ < 1 := Int.floor_lt.mpr (by push_cast; linarith)
  omega

theorem lt_half_of_round_nonpos (x : ℚ) (h : round x ≤ 0) : x < 1/2 := by
  rw [round_eq] at h
  have h1 : x + 1/2 < ((1 : ℤ) : ℚ) := Int.floor_lt.mp (by omega)
  push_cast at h1
  linarith

theorem round_diff_le_one (x y : ℚ) (h : |x - y| ≤ 1/2) :
    |round x - round y| ≤ 1 := by
  have hx := abs_sub_round x
  have hy := abs_sub_round y
  by_contra hcon
  have h2 : (2 : ℤ) ≤ |round x - round y| := by omega
  have h3 : (2 : ℚ) ≤ |((round x : ℚ)) - ((round y : ℚ))| := by
    exact_mod_cast h2
  have h4 : |((round x : ℚ)) - ((round y : ℚ))| ≤ 3/2 := by
    calc |((round x : ℚ)) - ((round y : ℚ))| =
        |((round x : ℚ)) - x + (x - y) + (y - ((round y : ℚ)))| := by ring_nf
      _ ≤ |((round x : ℚ)) - x| + |x - y| + |y - ((round y : ℚ))| := by
        calc |((round x : ℚ)) - x + (x - y) + (y - ((round y : ℚ)))| ≤
            |((round x : ℚ)) - x + (x - y)| + |y - ((round y : ℚ))| :=
              abs_add _ _
          _ ≤ |((round x : ℚ)) - x| + |x - y| + |y - ((round y : ℚ))| := by
              have := abs_add (((round x : ℚ)) - x) (x - y)
              linarith
      _ ≤ 1/2 + 1/2 + 1/2 := by
        rw [abs_sub_comm (((round x : ℚ))) x]
        have hy' : |((round y : ℚ)) - y| ≤ 1/2 := by
          rw [abs_sub_comm]
          exact hy
        rw [abs_sub_comm y (((round y : ℚ)))]
        linarith [hx, h, hy']
      _ = 3/2 := by norm_num
  push_cast at h3
  linarith

theorem max_one_lipschitz (a b : ℤ) (h : |a - b| ≤ 1) :
    |max 1 a - max 1 b| ≤ 1 := by
  rcases abs_le.mp h with ⟨h1, h2⟩
  rw [abs_le, max_def, max_def]
  split_ifs <;> omega

/-- Claim C9, amended: for positive factors `f1`, `f2` with `f2 ≤ 1` and
every canvas width `w`, scaling by `f1` and then by `f2` yields a
rounded width within 1 unit of scaling once by `f1·f2`.  (As originally
stated — for all positive `f2` — the claim is false; see the
counterexample above: a large second factor amplifies the first rounding
error beyond any fixed tolerance.) -/
theorem canvas_compose_approx (f1 f2 w : ℚ) (h1 : 0 < f1) (h2 : 0 < f2)
    (h3 : f2 ≤ 1) :
    |canvasDim f2 ((canvasDim f1 w : ℤ) : ℚ) - canvasDim (f1 * f2) w| ≤ 1 := by
  rcases le_or_lt (round (w * f1)) 0 with hm | hm
  · have hmax : canvasDim f1 w = 1 := max_eq_left (by omega)
    have hw : w * f1 < 1/2 := lt_half_of_round_nonpos _ hm
    have hb0 : round (w * (f1 * f2)) ≤ 0 := by
      apply round_nonpos_of_lt_half
      nlinarith
    have hb : canvasDim (f1 * f2) w = 1 := max_eq_left (by omega)
    have ha0 : round ((1 : ℚ) * f2) ≤ 1 := by
      rw [one_mul, round_eq]
      have : f2 + 1/2 < ((2 : ℤ) : ℚ) := by push_cast; linarith
      have h5 := Int.floor_lt.mpr this
      omega
    have ha : canvasDim f2 ((canvasDim f1 w : ℤ) : ℚ) = 1 := by
      rw [hmax]
      push_cast
      exact max_eq_left ha0
    rw [ha, hb]
    norm_num
  · have hmax : canvasDim f1 w = round (w * f1) := max_eq_right (by omega)
    have h5 : |w * f1 - ((round (w * f1) : ℤ) : ℚ)| ≤ 1/2 := abs_sub_round _
    have h6 : |((round (w * f1) : ℤ) : ℚ) * f2 - w * (f1 * f2)| ≤ 1/2 := by
      have he : ((round (w * f1) : ℤ) : ℚ) * f2 - w * (f1 * f2) =
          -((w * f1 - ((round (w * f1) : ℤ) : ℚ)) * f2) := by ring
      rw [he, abs_neg, abs_mul, abs_of_pos h2]
      nlinarith
    have h7 := round_diff_le_one _ _ h6
    have hmax' : (1 : ℤ) ⊔ round (w * f1) = round (w * f1) :=
      max_eq_right (by omega)
    simp only [canvasDim, hmax']
    exact max_one_lipschitz _ _ h7

/-- Witness for the amended C9. -/
theorem canvas_compose_approx_witness :
    |canvasDim (1/2) ((canvasDim 2 1920 : ℤ) : ℚ) -
        canvasDim (2 * (1/2)) 1920| ≤ 1 :=
  canvas_compose_approx 2 (1/2) 1920 (by norm_num) (by norm_num) (by norm_num)

theorem lcmOf_eq_lcm (a b : ℤ) : lcmOf a b = (Int.lcm a b : ℤ) := by
  show |a * b| / ((a.natAbs.gcd b.natAbs : ℕ) : ℤ) =
    ((a.natAbs.lcm b.natAbs : ℕ) : ℤ)
  rw [Int.abs_eq_natAbs, Int.natAbs_mul, Nat.lcm]
  exact (Int.ofNat_div _ _).symm

theorem intCast_lcm_pos (a b : ℤ) (ha : a ≠ 0) (hb : b ≠ 0) :
    0 < (Int.lcm a b : ℤ) := by
  have h : Int.lcm a b ≠ 0 :=
    Nat.lcm_ne_zero (Int.natAbs_ne_zero.mpr ha) (Int.natAbs_ne_zero.mpr hb)
  exact_mod_cast Nat.pos_of_ne_zero h

theorem int_dvd_lcm_left (a b : ℤ) : a ∣ (Int.lcm a b : ℤ) := by
  show a ∣ ((a.natAbs.lcm b.natAbs : ℕ) : ℤ)
  exact Int.natAbs_dvd.mp (Int.natCast_dvd_natCast.mpr (Nat.dvd_lcm_left _ _))

theorem int_dvd_lcm_right (a b : ℤ) : b ∣ (Int.lcm a b : ℤ) := by
  show b ∣ ((a.natAbs.lcm b.natAbs : ℕ) : ℤ)
  exact Int.natAbs_dvd.mp (Int.natCast_dvd_natCast.mpr (Nat.dvd_lcm_right _ _))

/-- Claim C10: `FrameStamp` subtraction `a - b` raises a `ValueError`
whose message starts with "Frame number must be non-negative" exactly
when `b`'s time value strictly exceeds `a`'s; otherwise it returns a
stamp whose `frame_rate` is the least common multiple of the two frame
rates and whose exact rational time equals `time(a) - time(b)`; and
every successfully constructed stamp satisfies `frame_number ≥ 0` and
`frame_rate > 0`. -/
theorem frame_stamp_sub_spec (n1 r1 n2 r2 : ℤ) (hn1 : 0 ≤ n1) (hr1 : 0 < r1)
    (hn2 : 0 ≤ n2) (hr2 : 0 < r2) :
    (FrameStamp.timeQ ⟨n1, r1⟩ < FrameStamp.timeQ ⟨n2, r2⟩ →
      ∃ rest, FrameStamp.sub ⟨n1, r1⟩ ⟨n2, r2⟩ =
        .error ("Frame number must be non-negative" ++ rest)) ∧
    (FrameStamp.timeQ ⟨n2, r2⟩ ≤ FrameStamp.timeQ ⟨n1, r1⟩ →
      ∃ s, FrameStamp.sub ⟨n1, r1⟩ ⟨n2, r2⟩ = .ok s ∧
        s.frame_rate = (Int.lcm r1 r2 : ℤ) ∧
        s.frame_number =
          (Int.lcm r1 r2 : ℤ) / r1 * n1 - (Int.lcm r1 r2 : ℤ) / r2 * n2 ∧
        FrameStamp.timeQ s =
          FrameStamp.timeQ ⟨n1, r1⟩ - FrameStamp.timeQ ⟨n2, r2⟩) ∧
    (∀ n r s, FrameStamp.make n r = .ok s →
      0 ≤ s.frame_number ∧ 0 < s.frame_rate) := by
  have hL : lcmOf r1 r2 = (Int.lcm r1 r2 : ℤ) := lcmOf_eq_lcm r1 r2
  have hLpos : 0 < (Int.lcm r1 r2 : ℤ) := intCast_lcm_pos r1 r2 hr1.ne' hr2.ne'
  have hd1 : r1 ∣ (Int.lcm r1 r2 : ℤ) := int_dvd_lcm_left r1 r2
  have hd2 : r2 ∣ (Int.lcm r1 r2 : ℤ) := int_dvd_lcm_right r1 r2
  have hr1Q : ((r1 : ℤ) : ℚ) ≠ 0 := by exact_mod_cast hr1.ne'
  have hr2Q : ((r2 : ℤ) : ℚ) ≠ 0 := by exact_mod_cast hr2.ne'
  have hLQ : (((Int.lcm r1 r2 : ℤ)) : ℚ) ≠ 0 := by exact_mod_cast hLpos.ne'
  have hc1 : (((Int.lcm r1 r2 : ℤ) / r1 : ℤ) : ℚ) =
      ((Int.lcm r1 r2 : ℤ) : ℚ) / (r1 : ℚ) := Int.cast_div hd1 hr1Q
  have hc2 : (((Int.lcm r1 r2 : ℤ) / r2 : ℤ) : ℚ) =
      ((Int.lcm r1 r2 : ℤ) : ℚ) / (r2 : ℚ) := Int.cast_div hd2 hr2Q
  have hcast : (((Int.lcm r1 r2 : ℤ) / r1 * n1 +
      (Int.lcm r1 r2 : ℤ) / r2 * (-n2) : ℤ) : ℚ) =
      ((Int.lcm r1 r2 : ℤ) : ℚ) *
        ((n1 : ℚ) / (r1 : ℚ) - (n2 : ℚ) / (r2 : ℚ)) := by
    push_cast [hc1, hc2]
    field_simp
    ring
  have hLQpos : (0 : ℚ) < ((Int.lcm r1 r2 : ℤ) : ℚ) := by exact_mod_cast hLpos
  have hkey : ((Int.lcm r1 r2 : ℤ) / r1 * n1 +
      (Int.lcm r1 r2 : ℤ) / r2 * (-n2) : ℤ) < 0 ↔
      (n1 : ℚ) / (r1 : ℚ) < (n2 : ℚ) / (r2 : ℚ) := by
    constructor
    · intro h
      have h0 : (((Int.lcm r1 r2 : ℤ) / r1 * n1 +
          (Int.lcm r1 r2 : ℤ) / r2 * (-n2) : ℤ) : ℚ) < 0 := by exact_mod_cast h
      rw [hcast] at h0
      by_contra h1
      push_neg at h1
      nlinarith [mul_nonneg hLQpos.le (sub_nonneg.mpr h1)]
    · intro h
      have h0 : (((Int.lcm r1 r2 : ℤ) / r1 * n1 +
          (Int.lcm r1 r2 : ℤ) / r2 * (-n2) : ℤ) : ℚ) < 0 := by
        rw [hcast]
        exact mul_neg_of_pos_of_neg hLQpos (by linarith)
      exact_mod_cast h0
  have hmk : ∀ n r s, FrameStamp.make n r = .ok s →
      0 ≤ s.frame_number ∧ 0 < s.frame_rate := by
    intro n r s hs
    unfold FrameStamp.make at hs
    split_ifs at hs with ha hb
    simp only [Except.ok.injEq] at hs
    subst hs
    constructor
    · simpa using not_lt.mp hb
    · simpa using not_le.mp ha
  refine ⟨?_, ?_, hmk⟩
  · intro hltQ
    have hF : ((Int.lcm r1 r2 : ℤ) / r1 * n1 +
        (Int.lcm r1 r2 : ℤ) / r2 * (-n2) : ℤ) < 0 := by
      apply hkey.mpr
      simpa [FrameStamp.timeQ] using hltQ
    refine ⟨", got " ++ toString ((Int.lcm r1 r2 : ℤ) / r1 * n1 +
      (Int.lcm r1 r2 : ℤ) / r2 * (-n2) : ℤ), ?_⟩
    simp only [FrameStamp.sub, FrameStamp.add_frame_stamps, hL]
    unfold FrameStamp.make
    rw [if_neg (not_le.mpr hLpos), if_pos hF]
    have e : "Frame number must be non-negative" ++ ", got " =
        "Frame number must be non-negative, got " := by decide
    rw [← String.append_assoc, e]
  · intro hgeQ
    have hF : ¬ ((Int.lcm r1 r2 : ℤ) / r1 * n1 +
        (Int.lcm r1 r2 : ℤ) / r2 * (-n2) : ℤ) < 0 := by
      rw [hkey]
      push_neg
      simpa [FrameStamp.timeQ] using hgeQ
    refine ⟨⟨(Int.lcm r1 r2 : ℤ) / r1 * n1 +
      (Int.lcm r1 r2 : ℤ) / r2 * (-n2), (Int.lcm r1 r2 : ℤ)⟩, ?_, rfl, ?_, ?_⟩
    · simp only [FrameStamp.sub, FrameStamp.add_frame_stamps, hL]
      unfold FrameStamp.make
      rw [if_neg (not_le.mpr hLpos), if_neg hF]
    · ring
    · show ((((Int.lcm r1 r2 : ℤ) / r1 * n1 +
        (Int.lcm r1 r2 : ℤ) / r2 * (-n2) : ℤ)) : ℚ) /
          ((Int.lcm r1 r2 : ℤ) : ℚ) = _
      rw [hcast, mul_comm, mul_div_assoc, div_self hLQ, mul_one]
      simp [FrameStamp.timeQ]

/-- Witness for C10. -/
theorem frame_stamp_sub_spec_witness :
    ∃ rest, FrameStamp.sub ⟨50, 30⟩ ⟨100, 30⟩ =
      .error ("Frame number must be non-negative" ++ rest) :=
  (frame_stamp_sub_spec 50 30 100 30 (by norm_num) (by norm_num) (by norm_num)
    (by norm_num)).1 (by norm_num [FrameStamp.timeQ])
